import Mathlib

/-!
Shallow embedding of `src/main/scanLogic/scanManager.ts` (the `ScanManager`
class of the jfrog-vscode-extension repository) and proofs about it.

Modelling conventions:
* `PackageType` and `vscode.Uri` are opaque identifiers; both are modelled as
  `String`.
* A JavaScript `Map<PackageType, vscode.Uri[]>` is modelled as an association
  list `List (PackageType × List Uri)`; iteration follows insertion order,
  exactly as a JS `Map` iterates.
* Errors thrown by the TypeScript code are modelled by `ScanError`:
  `ScanError.cancellation` stands for `ScanCancellationError` (the class the
  `catch` block tests with `instanceof`), `ScanError.failure msg` stands for
  every other thrown `Error`.
* External collaborators (capability discovery, dependency resolution, runner
  execution, the cancellation callback) are demonic parameters collected in
  `ScanEnv`: each awaited external call is given an arbitrary outcome
  (`Except ScanError _`), and the cancellation callback is given an arbitrary
  raise/return decision per call index.
* The observable behaviour of one `scanWorkspace` invocation is a trace of
  `ScanEvent`s plus the settlement of the returned promise.  Concurrent task
  effects are serialized at the `Promise.all` join point in launch order; the
  claims proved below either do not depend on that order or (for status
  monotonicity) are additionally proved for every interleaving of the status
  writes.
-/

set_option autoImplicit false

abbrev PackageType := String
abbrev Uri := String

/-- Status values of `ScanEventStatus` from `jfrog-client-js` that the scan
manager uses. -/
inductive ScanEventStatus
  | completed
  | failed
  | cancelled
  | started
  deriving DecidableEq, Repr

/-- A thrown JavaScript error: `cancellation` is `ScanCancellationError`,
`failure` is any other error (the payload distinguishes instances). -/
inductive ScanError
  | cancellation
  | failure (msg : String)
  deriving DecidableEq, Repr

deriving instance DecidableEq for Except

/-- The `BinaryEnvParams` parameter bag of `jasRunner.ts`: both fields are
optional in TypeScript. -/
structure BinaryEnvParams where
  msi : Option String := none
  tokenValidation : Option Bool := none
  deriving DecidableEq, Repr

/-- The part of `SupportedScans` that `scanManager.ts` reads: the discovered
token-validation capability flag. -/
structure SupportedScans where
  tokenValidation : Bool
  deriving DecidableEq, Repr

/-- One `JasRunner` as the scan manager sees it: its applicability predicate
`shouldRun()` and the outcome of its `scan(params)` call.  Each runner is
invoked at most once per invocation, so a fixed demonic outcome per runner is
a faithful abstraction; `name` identifies the runner in the trace. -/
structure JasRunner where
  name : String
  shouldRun : Bool
  scanOutcome : Except ScanError Unit
  deriving DecidableEq, Repr

/-- The part of the `JasRunnerFactory` that `scanManager.ts` reads:
`supportedScans` and `uniqFeatures` (the latter only forwarded to the usage
report). -/
structure JasRunnerFactory where
  supportedScans : SupportedScans
  uniqFeatures : List String
  deriving DecidableEq, Repr

/-- The part of `WorkspaceScanDetails` that `scanManager.ts` reads (its
mutable `status` field is tracked in the event trace instead). -/
structure WorkspaceScanDetails where
  multiScanId : Option String
  jasRunnerFactory : JasRunnerFactory
  deriving DecidableEq, Repr

/-- Observable events of one `scanWorkspace` invocation, in program order. -/
inductive ScanEvent
  | startStep (label : String) (totalTasks : Nat)
  | startScan
  | checkCancel (callIdx : Nat)
  | launchDep (pkgType : PackageType) (descriptorsPaths : List Uri)
  | launchRunner (runnerName : String) (params : Option BinaryEnvParams)
  | depResult (pkgType : PackageType)
  | runnerResult (runnerName : String)
  | logError (e : ScanError) (withAnalytics : Bool)
  | statusWrite (s : ScanEventStatus)
  | endScan
  | usageReport (features : List String)
  deriving DecidableEq, Repr

/-- Demonic environment of one invocation: the outcome of every external call
`scanWorkspace` performs.  `checkCanceledThrows n` tells whether the `n`-th
call of the `checkCanceled` callback raises `ScanCancellationError` (call `0`
is the one before fan-out, calls `1, 2, …` are the per-descriptor re-checks).
-/
structure ScanEnv where
  getSupportedScans : Except ScanError SupportedScans
  reportAnalytics : Bool
  startScanOutcome : Except ScanError Unit
  multiScanId : Option String
  uniqFeatures : List String
  createJasRunner : List JasRunner
  checkCanceledThrows : Nat → Bool
  scanPackageDependencies : PackageType → List Uri → Except ScanError Unit

/-- A settled promise together with the serialized trace of effects its
execution produced. -/
structure PromiseRun (α : Type) where
  events : List ScanEvent
  outcome : Except ScanError α

/-- The `.catch(handler)` combinator on a void promise: a rejection is
replaced by the handler effects and a void resolution (the TypeScript
handlers return `undefined`). -/
def pcatch (p : PromiseRun Unit) (handler : ScanError → List ScanEvent) : PromiseRun Unit :=
  match p.outcome with
  | .ok _ => p
  | .error e => { events := p.events ++ handler e, outcome := .ok () }

/-- `ScanManager.calculateNumberOfTasks`: sums the manifest counts of the
non-empty descriptor lists and adds the length of the runner list. -/
def calculateNumberOfTasks (jasRunners : List JasRunner)
    (workspaceDescriptors : List (PackageType × List Uri)) : Nat :=
  ((workspaceDescriptors.map Prod.snd).filter
      (fun descriptorsPaths => descriptorsPaths.length > 0)).foldl
    (fun count values => count + values.length) 0
  + jasRunners.length

/-- Task count as the SPEC words it (claim C1): manifest counts of the
non-empty lists plus the number of runners whose applicability predicate
returns true.  This definition follows the spec, not the source, and exists
only to be compared with `calculateNumberOfTasks`. -/
def specNumberOfTasks (jasRunners : List JasRunner)
    (workspaceDescriptors : List (PackageType × List Uri)) : Nat :=
  ((workspaceDescriptors.map Prod.snd).filter
      (fun descriptorsPaths => descriptorsPaths.length > 0)).foldl
    (fun count values => count + values.length) 0
  + (jasRunners.filter (fun r => r.shouldRun)).length

/-- Execution of `DependencyUtils.scanPackageDependencies(this, scanDetails,
type, descriptorsPaths)` for one ecosystem, before the attached `catch`: on
success the results for that ecosystem are written into the accumulator and
issues tree (event `depResult`), on failure the promise rejects. -/
def scanPackageDependenciesRun (env : ScanEnv) (pkgType : PackageType)
    (descriptorsPaths : List Uri) : PromiseRun Unit :=
  match env.scanPackageDependencies pkgType descriptorsPaths with
  | .ok _ => { events := [.depResult pkgType], outcome := .ok () }
  | .error e => { events := [], outcome := .error e }

/-- The `catch` handler attached to each dependency-scan promise in
`runDependenciesScans`: `LogUtils.logErrorWithAnalytics(error, connMgr, true)`
followed by `scanDetails.status = ScanEventStatus.Failed`. -/
def depCatchHandler (e : ScanError) : List ScanEvent :=
  [.logError e true, .statusWrite .failed]

/-- One wrapped dependency-scan task as pushed onto `scansPromises`:
the underlying scan with its `catch` handler attached. -/
def depTaskRun (env : ScanEnv) (pkgType : PackageType)
    (descriptorsPaths : List Uri) : PromiseRun Unit :=
  pcatch (scanPackageDependenciesRun env pkgType descriptorsPaths) depCatchHandler

/-- Execution of `runner.scan(params)` before the attached `catch`: on
success the runner writes its findings (event `runnerResult`), on failure the
promise rejects. -/
def scanRun (r : JasRunner) : PromiseRun Unit :=
  match r.scanOutcome with
  | .ok _ => { events := [.runnerResult r.name], outcome := .ok () }
  | .error e => { events := [], outcome := .error e }

/-- The `catch` handler attached to each runner promise in
`runSourceCodeScans`: `LogUtils.logErrorWithAnalytics(error, connMgr)` (the
analytics toast flag is omitted, hence `false`) followed by
`scanDetails.status = ScanEventStatus.Failed`. -/
def runnerCatchHandler (e : ScanError) : List ScanEvent :=
  [.logError e false, .statusWrite .failed]

/-- One wrapped runner task as pushed onto `scansPromises`. -/
def runnerTaskRun (r : JasRunner) : PromiseRun Unit :=
  pcatch (scanRun r) runnerCatchHandler

/-- `ScanManager.runDependenciesScans`: iterates the descriptor map in
insertion order, calls `checkCanceled()` before every push, and pushes one
wrapped dependency-scan promise per entry.  Returns the pre-launch events
(cancellation checks and launches), the promises already launched when the
function returns or throws, and the error when some `checkCanceled()` call
threw.  `callIdx` numbers the `checkCanceled` calls of the invocation. -/
def runDependenciesScans (env : ScanEnv) :
    List (PackageType × List Uri) → Nat →
    List ScanEvent × List (PromiseRun Unit) × Option ScanError
  | [], _ => ([], [], none)
  | (pkgType, descriptorsPaths) :: rest, callIdx =>
    if env.checkCanceledThrows callIdx then
      ([.checkCancel callIdx], [], some .cancellation)
    else
      let (evs, runs, err) := runDependenciesScans env rest (callIdx + 1)
      (.checkCancel callIdx :: .launchDep pkgType descriptorsPaths :: evs,
       depTaskRun env pkgType descriptorsPaths :: runs,
       err)

/-- Assembly of the shared `BinaryEnvParams` bag at the top of
`runSourceCodeScans` (lines 108-118 of the source): `params` starts
`undefined`, gains `msi` when `scanDetails.multiScanId` is set, and gains
`tokenValidation` when the discovered capabilities include it. -/
def buildBinaryEnvParams (scanDetails : WorkspaceScanDetails) : Option BinaryEnvParams :=
  let params : Option BinaryEnvParams :=
    match scanDetails.multiScanId with
    | some id => some { msi := some id }
    | none => none
  if scanDetails.jasRunnerFactory.supportedScans.tokenValidation then
    match params with
    | some p =>
      some { p with tokenValidation := some scanDetails.jasRunnerFactory.supportedScans.tokenValidation }
    | none =>
      some { tokenValidation := some scanDetails.jasRunnerFactory.supportedScans.tokenValidation }
  else
    params

/-- Loop body of `runSourceCodeScans`: for each runner whose `shouldRun()`
returns true, push its wrapped `scan(params)` promise. -/
def runSourceCodeScansLoop (params : Option BinaryEnvParams) :
    List JasRunner → List ScanEvent × List (PromiseRun Unit)
  | [] => ([], [])
  | runner :: rest =>
    let (evs, runs) := runSourceCodeScansLoop params rest
    if runner.shouldRun then
      (.launchRunner runner.name params :: evs, runnerTaskRun runner :: runs)
    else
      (evs, runs)

/-- `ScanManager.runSourceCodeScans`: assembles the shared parameter bag once
and launches every applicable runner with it. -/
def runSourceCodeScans (scanDetails : WorkspaceScanDetails)
    (jasRunners : List JasRunner) : List ScanEvent × List (PromiseRun Unit) :=
  runSourceCodeScansLoop (buildBinaryEnvParams scanDetails) jasRunners

/-- `Promise.all` over already-launched void promises: every task runs to
completion (its events all occur); the join resolves when all resolve and
rejects with the first rejection otherwise. -/
def promiseAll (runs : List (PromiseRun Unit)) : PromiseRun Unit :=
  { events := (runs.map PromiseRun.events).flatten,
    outcome := runs.foldl
      (fun acc r =>
        match acc with
        | .error e => .error e
        | .ok _ => r.outcome)
      (.ok ()) }

/-- The `catch`-block mapping of line 74-79: `ScanCancellationError` becomes
status `Cancelled`, any other error becomes status `Failed`. -/
def statusFor (e : ScanError) : ScanEventStatus :=
  match e with
  | .cancellation => .cancelled
  | .failure _ => .failed

/-- Body of the `try` block of `scanWorkspace` (lines 66-73): optional
analytics start, the single pre-fan-out `checkCanceled()` call, the two
fan-outs, and the `Promise.all` join.  When the per-descriptor
`checkCanceled()` throws mid-loop, the promises already pushed keep running
unawaited; their effects are serialized right after the loop (one legal
schedule — no claim below depends on their placement). -/
def tryBody (env : ScanEnv) (scanDetails : WorkspaceScanDetails)
    (jasRunners : List JasRunner)
    (workspaceDescriptors : List (PackageType × List Uri)) : PromiseRun Unit :=
  let analytics : PromiseRun Unit :=
    if env.reportAnalytics then
      { events := [.startScan], outcome := env.startScanOutcome }
    else
      { events := [], outcome := .ok () }
  match analytics.outcome with
  | .error e => { events := analytics.events, outcome := .error e }
  | .ok _ =>
    if env.checkCanceledThrows 0 then
      { events := analytics.events ++ [.checkCancel 0], outcome := .error .cancellation }
    else
      let (depPre, depRuns, depErr) := runDependenciesScans env workspaceDescriptors 1
      match depErr with
      | some e =>
        { events := analytics.events ++ [.checkCancel 0] ++ depPre
            ++ (depRuns.map PromiseRun.events).flatten,
          outcome := .error e }
      | none =>
        let (srcPre, srcRuns) := runSourceCodeScans scanDetails jasRunners
        let joined := promiseAll (depRuns ++ srcRuns)
        { events := analytics.events ++ [.checkCancel 0] ++ depPre ++ srcPre ++ joined.events,
          outcome := joined.outcome }

/-- The `WorkspaceScanDetails` object built at the top of `scanWorkspace`
(line 55-61): it receives the discovered supported scans and exposes
`multiScanId` and the runner factory. -/
def sessionDetails (env : ScanEnv) (supported : SupportedScans) : WorkspaceScanDetails :=
  { multiScanId := env.multiScanId,
    jasRunnerFactory := { supportedScans := supported, uniqFeatures := env.uniqFeatures } }

/-- Settlement and trace of one `scanWorkspace` invocation. -/
structure InvocationResult where
  trace : List ScanEvent
  result : Except ScanError Unit

/-- `ScanManager.scanWorkspace`: builds the `WorkspaceScanDetails` (awaiting
capability discovery — an exception there escapes before the `try` block is
entered), creates the runners, starts the progress step with the computed
task count, then runs the `try`/`catch`/`finally` of lines 65-84.  The
`finally` clause (`endScan` and `sendUsageReport`) runs after the `try` body
settles and after the `catch` recorded the status, and the function
returns/rethrows only afterwards. -/
def scanWorkspace (env : ScanEnv)
    (workspaceDescriptors : List (PackageType × List Uri)) : InvocationResult :=
  match env.getSupportedScans with
  | .error e => { trace := [], result := .error e }
  | .ok supported =>
    let scanDetails : WorkspaceScanDetails := sessionDetails env supported
    let jasRunners := env.createJasRunner
    let startEvs : List ScanEvent :=
      [.startStep "Scanning for issues" (calculateNumberOfTasks jasRunners workspaceDescriptors)]
    let body := tryBody env scanDetails jasRunners workspaceDescriptors
    match body.outcome with
    | .ok _ =>
      { trace := startEvs ++ body.events ++ [.endScan, .usageReport env.uniqFeatures],
        result := .ok () }
    | .error e =>
      { trace := startEvs ++ body.events
          ++ [.statusWrite (statusFor e), .endScan, .usageReport env.uniqFeatures],
        result := .error e }

/-- Recognizes the `scanDetails.endScan()` finalization event. -/
def isEndScanEvent : ScanEvent → Bool
  | .endScan => true
  | _ => false

/-- Recognizes the `UsageUtils.sendUsageReport(...)` finalization event. -/
def isUsageReportEvent : ScanEvent → Bool
  | .usageReport _ => true
  | _ => false

/-- Recognizes the launch of a dependency-scan or runner task. -/
def isLaunchEvent : ScanEvent → Bool
  | .launchDep _ _ => true
  | .launchRunner _ _ => true
  | _ => false

/-- The sequence of writes to `scanDetails.status` that a trace performs, in
trace order. -/
def statusWritesOf (trace : List ScanEvent) : List ScanEventStatus :=
  trace.filterMap fun ev =>
    match ev with
    | .statusWrite s => some s
    | _ => none

/-- Replays a sequence of assignments to the `status` field on top of an
initial value: the field holds the last value written. -/
def applyWrites (init : ScanEventStatus) (writes : List ScanEventStatus) : ScanEventStatus :=
  writes.foldl (fun _ w => w) init

/-- Classification of the events the `try` body of `scanWorkspace` can emit:
never a finalization event, and every status write it performs writes
`Failed` (the per-task `catch` handlers are the only status writers inside
the body). -/
def tryBodyEvent (ev : ScanEvent) : Prop :=
  match ev with
  | .statusWrite s => s = .failed
  | .endScan => False
  | .usageReport _ => False
  | _ => True

/-- Expected pre-launch event sequence of `runDependenciesScans` when no
cancellation fires: one `checkCancel` then one `launchDep` per entry, in map
iteration order. -/
def checkAndLaunchEvents : List (PackageType × List Uri) → Nat → List ScanEvent
  | [], _ => []
  | (pkgType, descriptorsPaths) :: rest, callIdx =>
    .checkCancel callIdx :: .launchDep pkgType descriptorsPaths
      :: checkAndLaunchEvents rest (callIdx + 1)

/-- The correlation id carried by an optional parameter bag. -/
def msiOf (params : Option BinaryEnvParams) : Option String :=
  params.bind BinaryEnvParams.msi

/-- The token-validation flag carried by an optional parameter bag. -/
def tokenValidationOf (params : Option BinaryEnvParams) : Option Bool :=
  params.bind BinaryEnvParams.tokenValidation

/-- A runner whose applicability predicate returns false. -/
def idleRunner : JasRunner :=
  { name := "applicability", shouldRun := false, scanOutcome := .ok () }

/-- A runner that is applicable and succeeds. -/
def okRunner : JasRunner :=
  { name := "secrets", shouldRun := true, scanOutcome := .ok () }

/-- A runner that is applicable and fails. -/
def badRunner : JasRunner :=
  { name := "sast", shouldRun := true, scanOutcome := .error (.failure "runner crashed") }

/-- Environment in which every external call succeeds and cancellation never
fires. -/
def envHappy : ScanEnv :=
  { getSupportedScans := .ok { tokenValidation := true },
    reportAnalytics := true,
    startScanOutcome := .ok (),
    multiScanId := some "msi-1",
    uniqFeatures := ["Xray", "Secrets"],
    createJasRunner := [okRunner, idleRunner],
    checkCanceledThrows := fun _ => false,
    scanPackageDependencies := fun _ _ => .ok () }

/-- Environment for the C2 counterexample: no cancellation, dependency
resolution succeeds. -/
def envC2 : ScanEnv :=
  { envHappy with reportAnalytics := false, multiScanId := none }

/-- Environment for the C3 counterexample: capability discovery (awaited in
the `WorkspaceScanDetails` construction, before the `try` block) rejects. -/
def envC3 : ScanEnv :=
  { envHappy with getSupportedScans := .error (.failure "supported scans request failed") }

/-- Environment for the C4 witness: the npm dependency scan fails while the
go dependency scan and the applicable runner succeed. -/
def envC4 : ScanEnv :=
  { envHappy with
    scanPackageDependencies := fun pkgType _ =>
      if pkgType = "npm" then .error (.failure "graph resolution failed") else .ok () }

/-- Environment for the C5 witness: the pre-fan-out cancellation check
raises, so the `try` body ends with an unhandled cancellation. -/
def envC5 : ScanEnv :=
  { envHappy with checkCanceledThrows := fun callIdx => callIdx = 0 }

/-- Environment for the C6 witness: every cancellation check raises. -/
def envC6 : ScanEnv :=
  { envHappy with checkCanceledThrows := fun _ => true }

/-- Environment for the C7 witness: one dependency scan fails, so the trace
contains a `Failed` status write. -/
def envC7 : ScanEnv :=
  { envHappy with scanPackageDependencies := fun _ _ => .error (.failure "dep scan failed") }

/-- Environment for the C9 counterexample: capability discovery rejects, so
the promise settles without the `finally` block ever running. -/
def envC9 : ScanEnv :=
  { envHappy with getSupportedScans := .error (.failure "connection refused") }

/-! Helper lemmas. -/

theorem foldl_add_length (l : List (List Uri)) (a : Nat) :
    l.foldl (fun count values => count + values.length) a
      = a + (l.map List.length).sum := by
  induction l generalizing a with
  | nil => simp
  | cons hd tl ih => simp [List.foldl_cons, ih, Nat.add_assoc]

theorem filter_nonempty_length_sum (l : List (List Uri)) :
    ((l.filter fun descriptorsPaths => descriptorsPaths.length > 0).map List.length).sum
      = (l.map List.length).sum := by
  induction l with
  | nil => rfl
  | cons hd tl ih =>
    by_cases h : hd.length > 0
    · simp [List.filter_cons, h, ih]
    · have hz : hd.length = 0 := Nat.eq_zero_of_not_pos h
      simp [List.filter_cons, h, ih, hz]

theorem runDependenciesScans_no_cancel (env : ScanEnv)
    (ws : List (PackageType × List Uri)) (k : Nat)
    (h : ∀ n, env.checkCanceledThrows n = false) :
    runDependenciesScans env ws k =
      (checkAndLaunchEvents ws k,
       ws.map (fun entry => depTaskRun env entry.1 entry.2),
       none) := by
  induction ws generalizing k with
  | nil => rfl
  | cons hd tl ih =>
    obtain ⟨pkgType, descriptorsPaths⟩ := hd
    simp [runDependenciesScans, h, checkAndLaunchEvents, ih]

theorem runSourceCodeScansLoop_eq (params : Option BinaryEnvParams)
    (jasRunners : List JasRunner) :
    runSourceCodeScansLoop params jasRunners =
      ((jasRunners.filter fun r => r.shouldRun).map
         (fun r => .launchRunner r.name params),
       (jasRunners.filter fun r => r.shouldRun).map runnerTaskRun) := by
  induction jasRunners with
  | nil => rfl
  | cons r rest ih =>
    by_cases hr : r.shouldRun <;>
      simp [runSourceCodeScansLoop, ih, List.filter_cons, hr]

theorem depTaskRun_outcome (env : ScanEnv) (pkgType : PackageType)
    (descriptorsPaths : List Uri) :
    (depTaskRun env pkgType descriptorsPaths).outcome = .ok () := by
  rcases h : env.scanPackageDependencies pkgType descriptorsPaths with u | e <;>
    simp [depTaskRun, pcatch, scanPackageDependenciesRun, h]

theorem runnerTaskRun_outcome (r : JasRunner) :
    (runnerTaskRun r).outcome = .ok () := by
  rcases h : r.scanOutcome with u | e <;>
    simp [runnerTaskRun, pcatch, scanRun, h]

theorem promiseAll_outcome_ok (runs : List (PromiseRun Unit))
    (h : ∀ r ∈ runs, r.outcome = .ok ()) :
    (promiseAll runs).outcome = .ok () := by
  simp only [promiseAll]
  induction runs with
  | nil => rfl
  | cons r rest ih =>
    rw [List.foldl_cons]
    have hr : r.outcome = Except.ok () := h r (by simp)
    show rest.foldl _ r.outcome = Except.ok ()
    rw [hr]
    exact ih fun x hx => h x (List.mem_cons_of_mem _ hx)

/-- Claim C1, counterexample: with no descriptors and one runner whose
`shouldRun()` returns false, `calculateNumberOfTasks` returns 1 while the
claimed formula (manifest counts plus applicable-runner count) gives 0:
the source adds `jasRunners.length`, not the applicable-runner count. -/
theorem claimC1_counterexample :
    calculateNumberOfTasks [idleRunner] [] ≠ specNumberOfTasks [idleRunner] [] := by
  decide

/-- Claim C1, amended: for every descriptor mapping and runner list, the
total task-unit count equals the sum of the manifest counts of the non-empty
ecosystem manifest lists (equivalently, of all lists — empty lists
contribute nothing) plus the number of ALL created runners, regardless of
their applicability predicate. -/
theorem claimC1 (jasRunners : List JasRunner)
    (workspaceDescriptors : List (PackageType × List Uri)) :
    calculateNumberOfTasks jasRunners workspaceDescriptors
      = (workspaceDescriptors.map fun entry => entry.2.length).sum
        + jasRunners.length := by
  unfold calculateNumberOfTasks
  rw [foldl_add_length, Nat.zero_add, filter_nonempty_length_sum, List.map_map]
  rfl

/-- Claim C2, counterexample: an entry whose manifest list is empty still
launches one dependency-scan task (the source loop has no emptiness check),
while the claim requires zero. -/
theorem claimC2_counterexample :
    (runDependenciesScans envC2 [("npm", [])] 1).2.1.length ≠ 0 := by
  decide

/-- Claim C2, amended: whenever no cancellation check fires,
`runDependenciesScans` launches exactly one dependency-scan task per
(ecosystem, manifestPaths) entry — including entries whose manifest list is
empty — re-checking cancellation before each launch (the pre-launch event
sequence is one `checkCancel` followed by one `launchDep` per entry). -/
theorem claimC2 (env : ScanEnv) (ws : List (PackageType × List Uri)) (k : Nat)
    (h : ∀ n, env.checkCanceledThrows n = false) :
    (runDependenciesScans env ws k).1 = checkAndLaunchEvents ws k ∧
    (runDependenciesScans env ws k).2.1
      = ws.map (fun entry => depTaskRun env entry.1 entry.2) ∧
    (runDependenciesScans env ws k).2.2 = none := by
  rw [runDependenciesScans_no_cancel env ws k h]
  exact ⟨rfl, rfl, rfl⟩

/-- Claim C2, witness: concrete instantiation of the amended theorem with
one single-manifest npm entry. -/
theorem claimC2_witness :
    (∀ n, envC2.checkCanceledThrows n = false) ∧
    (runDependenciesScans envC2 [("npm", ["package.json"])] 1).2.1
      = [depTaskRun envC2 "npm" ["package.json"]] :=
  ⟨fun _ => rfl, (claimC2 envC2 [("npm", ["package.json"])] 1 fun _ => rfl).2.1⟩

/-- Claim C10: every promise in the arrays returned by the two fan-out
methods resolves (never rejects) — an underlying scan failure is converted
by the attached `catch` handler into a void resolution — and therefore the
`Promise.all` join over any such array resolves. -/
theorem claimC10 (env : ScanEnv) (ws : List (PackageType × List Uri))
    (jasRunners : List JasRunner) :
    (∀ pkgType descriptorsPaths,
        (depTaskRun env pkgType descriptorsPaths).outcome = .ok ()) ∧
    (∀ r : JasRunner, (runnerTaskRun r).outcome = .ok ()) ∧
    (promiseAll ((ws.map fun entry => depTaskRun env entry.1 entry.2)
        ++ jasRunners.map runnerTaskRun)).outcome = .ok () := by
  refine ⟨fun t ps => depTaskRun_outcome env t ps, runnerTaskRun_outcome, ?_⟩
  apply promiseAll_outcome_ok
  intro r hr
  rcases List.mem_append.mp hr with hl | hl
  · obtain ⟨entry, _, rfl⟩ := List.mem_map.mp hl
    exact depTaskRun_outcome env entry.1 entry.2
  · obtain ⟨runner, _, rfl⟩ := List.mem_map.mp hl
    exact runnerTaskRun_outcome runner

theorem isEndScanEvent_eq_false (ev : ScanEvent) (h : tryBodyEvent ev) :
    isEndScanEvent ev = false := by
  cases ev <;> simp_all [tryBodyEvent, isEndScanEvent]

theorem isUsageReportEvent_eq_false (ev : ScanEvent) (h : tryBodyEvent ev) :
    isUsageReportEvent ev = false := by
  cases ev <;> simp_all [tryBodyEvent, isUsageReportEvent]

theorem depTaskRun_events_ok (env : ScanEnv) (pkgType : PackageType)
    (descriptorsPaths : List Uri)
    (h : env.scanPackageDependencies pkgType descriptorsPaths = .ok ()) :
    (depTaskRun env pkgType descriptorsPaths).events = [.depResult pkgType] := by
  simp [depTaskRun, pcatch, scanPackageDependenciesRun, h]

theorem depTaskRun_events_error (env : ScanEnv) (pkgType : PackageType)
    (descriptorsPaths : List Uri) (e : ScanError)
    (h : env.scanPackageDependencies pkgType descriptorsPaths = .error e) :
    (depTaskRun env pkgType descriptorsPaths).events
      = [.logError e true, .statusWrite .failed] := by
  simp [depTaskRun, pcatch, scanPackageDependenciesRun, h, depCatchHandler]

theorem runnerTaskRun_events_ok (r : JasRunner) (h : r.scanOutcome = .ok ()) :
    (runnerTaskRun r).events = [.runnerResult r.name] := by
  simp [runnerTaskRun, pcatch, scanRun, h]

theorem runnerTaskRun_events_error (r : JasRunner) (e : ScanError)
    (h : r.scanOutcome = .error e) :
    (runnerTaskRun r).events = [.logError e false, .statusWrite .failed] := by
  simp [runnerTaskRun, pcatch, scanRun, h, runnerCatchHandler]

theorem tryBodyEvent_depTaskRun (env : ScanEnv) (pkgType : PackageType)
    (descriptorsPaths : List Uri) :
    ∀ ev ∈ (depTaskRun env pkgType descriptorsPaths).events, tryBodyEvent ev := by
  intro ev hev
  rcases h : env.scanPackageDependencies pkgType descriptorsPaths with e | u
  · rw [depTaskRun_events_error env pkgType descriptorsPaths e h] at hev
    simp at hev
    rcases hev with rfl | rfl <;> trivial
  · rw [depTaskRun_events_ok env pkgType descriptorsPaths h] at hev
    simp at hev
    subst hev; trivial

theorem tryBodyEvent_runnerTaskRun (r : JasRunner) :
    ∀ ev ∈ (runnerTaskRun r).events, tryBodyEvent ev := by
  intro ev hev
  rcases h : r.scanOutcome with e | u
  · rw [runnerTaskRun_events_error r e h] at hev
    simp at hev
    rcases hev with rfl | rfl <;> trivial
  · rw [runnerTaskRun_events_ok r h] at hev
    simp at hev
    subst hev; trivial

theorem tryBodyEvent_checkAndLaunch (ws : List (PackageType × List Uri)) (k : Nat) :
    ∀ ev ∈ checkAndLaunchEvents ws k, tryBodyEvent ev := by
  induction ws generalizing k with
  | nil => intro ev hev; cases hev
  | cons hd tl ih =>
    obtain ⟨pkgType, descriptorsPaths⟩ := hd
    intro ev hev
    simp [checkAndLaunchEvents] at hev
    rcases hev with rfl | rfl | hev
    · trivial
    · trivial
    · exact ih (k + 1) ev hev

theorem tryBodyEvent_runDependenciesScans (env : ScanEnv)
    (ws : List (PackageType × List Uri)) (k : Nat) :
    (∀ ev ∈ (runDependenciesScans env ws k).1, tryBodyEvent ev) ∧
    (∀ p ∈ (runDependenciesScans env ws k).2.1, ∀ ev ∈ p.events, tryBodyEvent ev) := by
  induction ws generalizing k with
  | nil =>
    exact ⟨fun ev hev => absurd hev (List.not_mem_nil ev),
           fun p hp => absurd hp (List.not_mem_nil p)⟩
  | cons hd tl ih =>
    obtain ⟨pkgType, descriptorsPaths⟩ := hd
    by_cases hc : env.checkCanceledThrows k
    · constructor
      · intro ev hev
        simp [runDependenciesScans, hc] at hev
        subst hev; trivial
      · intro p hp
        simp [runDependenciesScans, hc] at hp
    · obtain ⟨ih1, ih2⟩ := ih (k + 1)
      rcases hrec : runDependenciesScans env tl (k + 1) with ⟨evs, runs, err⟩
      rw [hrec] at ih1 ih2
      constructor
      · intro ev hev
        simp [runDependenciesScans, hc, hrec] at hev
        rcases hev with rfl | rfl | hev
        · trivial
        · trivial
        · exact ih1 ev hev
      · intro p hp
        simp [runDependenciesScans, hc, hrec] at hp
        rcases hp with rfl | hp
        · exact tryBodyEvent_depTaskRun env pkgType descriptorsPaths
        · exact ih2 p hp

theorem tryBodyEvent_runSourceCodeScans (scanDetails : WorkspaceScanDetails)
    (jasRunners : List JasRunner) :
    (∀ ev ∈ (runSourceCodeScans scanDetails jasRunners).1, tryBodyEvent ev) ∧
    (∀ p ∈ (runSourceCodeScans scanDetails jasRunners).2,
      ∀ ev ∈ p.events, tryBodyEvent ev) := by
  rw [runSourceCodeScans, runSourceCodeScansLoop_eq]
  constructor
  · intro ev hev
    obtain ⟨r, _, rfl⟩ := List.mem_map.mp hev
    trivial
  · intro p hp
    obtain ⟨r, _, rfl⟩ := List.mem_map.mp hp
    exact tryBodyEvent_runnerTaskRun r

theorem tryBodyEvent_flatten (runs : List (PromiseRun Unit))
    (h : ∀ p ∈ runs, ∀ ev ∈ p.events, tryBodyEvent ev) :
    ∀ ev ∈ (runs.map PromiseRun.events).flatten, tryBodyEvent ev := by
  intro ev hev
  obtain ⟨l, hl, hev⟩ := List.mem_flatten.mp hev
  obtain ⟨p, hp, rfl⟩ := List.mem_map.mp hl
  exact h p hp ev hev

theorem tryBodyEvent_tryBody (env : ScanEnv) (scanDetails : WorkspaceScanDetails)
    (jasRunners : List JasRunner) (ws : List (PackageType × List Uri)) :
    ∀ ev ∈ (tryBody env scanDetails jasRunners ws).events, tryBodyEvent ev := by
  have hana : ∀ ev ∈ ((if env.reportAnalytics then
      ({ events := [.startScan], outcome := env.startScanOutcome } : PromiseRun Unit)
      else { events := [], outcome := .ok () }) : PromiseRun Unit).events,
      tryBodyEvent ev := by
    by_cases hra : env.reportAnalytics
    · simp [hra]; trivial
    · simp [hra]
  have hdep := tryBodyEvent_runDependenciesScans env ws 1
  have hsrc := tryBodyEvent_runSourceCodeScans scanDetails jasRunners
  intro ev hev
  simp only [tryBody] at hev
  split at hev
  · exact hana ev hev
  · split at hev
    · rw [List.mem_append] at hev
      rcases hev with hev | hev
      · exact hana ev hev
      · simp at hev; subst hev; trivial
    · rcases hrec : runDependenciesScans env ws 1 with ⟨depPre, depRuns, depErr⟩
      rw [hrec] at hev hdep
      cases depErr with
      | some e =>
        simp only [List.mem_append] at hev
        rcases hev with ((hev | hev) | hev) | hev
        · exact hana ev hev
        · simp at hev; subst hev; trivial
        · exact hdep.1 ev hev
        · exact tryBodyEvent_flatten depRuns hdep.2 ev hev
      | none =>
        rcases hsrcEq : runSourceCodeScans scanDetails jasRunners with ⟨srcPre, srcRuns⟩
        rw [hsrcEq] at hev hsrc
        simp only [promiseAll, List.mem_append] at hev
        rcases hev with (((hev | hev) | hev) | hev) | hev
        · exact hana ev hev
        · simp at hev; subst hev; trivial
        · exact hdep.1 ev hev
        · exact hsrc.1 ev hev
        · refine tryBodyEvent_flatten (depRuns ++ srcRuns) ?_ ev hev
          intro p hp
          rcases List.mem_append.mp hp with hp | hp
          · exact hdep.2 p hp
          · exact hsrc.2 p hp

theorem tryBody_happy_outcome (env : ScanEnv) (sd : WorkspaceScanDetails)
    (rs : List JasRunner) (ws : List (PackageType × List Uri))
    (hana : env.reportAnalytics = true → env.startScanOutcome = .ok ())
    (hcc : ∀ n, env.checkCanceledThrows n = false) :
    (tryBody env sd rs ws).outcome = .ok () := by
  have hdep := runDependenciesScans_no_cancel env ws 1 hcc
  have hsrc : runSourceCodeScans sd rs =
      ((rs.filter fun r => r.shouldRun).map
         (fun r => ScanEvent.launchRunner r.name (buildBinaryEnvParams sd)),
       (rs.filter fun r => r.shouldRun).map runnerTaskRun) := by
    rw [runSourceCodeScans, runSourceCodeScansLoop_eq]
  have hout : (promiseAll ((ws.map fun entry => depTaskRun env entry.1 entry.2)
      ++ (rs.filter fun r => r.shouldRun).map runnerTaskRun)).outcome = Except.ok () := by
    apply promiseAll_outcome_ok
    intro r hr
    rcases List.mem_append.mp hr with hl | hl
    · obtain ⟨entry, _, rfl⟩ := List.mem_map.mp hl
      exact depTaskRun_outcome env entry.1 entry.2
    · obtain ⟨runner, _, rfl⟩ := List.mem_map.mp hl
      exact runnerTaskRun_outcome runner
  by_cases hra : env.reportAnalytics
  · simp only [tryBody, hra, if_true, hana hra, hcc 0, hdep, hsrc]
    simpa [promiseAll] using hout
  · simp only [tryBody, hra, if_false, Bool.false_eq_true, hcc 0, hdep, hsrc]
    simpa [promiseAll] using hout

theorem tryBody_happy_events (env : ScanEnv) (sd : WorkspaceScanDetails)
    (rs : List JasRunner) (ws : List (PackageType × List Uri))
    (hana : env.reportAnalytics = true → env.startScanOutcome = .ok ())
    (hcc : ∀ n, env.checkCanceledThrows n = false) :
    (tryBody env sd rs ws).events
      = (if env.reportAnalytics then [ScanEvent.startScan] else [])
        ++ [.checkCancel 0]
        ++ checkAndLaunchEvents ws 1
        ++ ((rs.filter fun r => r.shouldRun).map
              fun r => ScanEvent.launchRunner r.name (buildBinaryEnvParams sd))
        ++ (((ws.map fun entry => depTaskRun env entry.1 entry.2)
            ++ (rs.filter fun r => r.shouldRun).map runnerTaskRun).map
              PromiseRun.events).flatten := by
  have hdep := runDependenciesScans_no_cancel env ws 1 hcc
  have hsrc : runSourceCodeScans sd rs =
      ((rs.filter fun r => r.shouldRun).map
         (fun r => ScanEvent.launchRunner r.name (buildBinaryEnvParams sd)),
       (rs.filter fun r => r.shouldRun).map runnerTaskRun) := by
    rw [runSourceCodeScans, runSourceCodeScansLoop_eq]
  by_cases hra : env.reportAnalytics
  · simp [tryBody, hra, hana hra, hcc 0, hdep, hsrc, promiseAll]
  · simp [tryBody, hra, hcc 0, hdep, hsrc, promiseAll]

theorem statusWrites_tryBody (env : ScanEnv) (sd : WorkspaceScanDetails)
    (rs : List JasRunner) (ws : List (PackageType × List Uri)) :
    ∀ s ∈ statusWritesOf (tryBody env sd rs ws).events, s = .failed := by
  intro s hs
  obtain ⟨ev, hev, hf⟩ := List.mem_filterMap.mp hs
  have ht := tryBodyEvent_tryBody env sd rs ws ev hev
  cases ev <;> simp_all [tryBodyEvent]

/-- Claim C3, counterexample: when the awaited capability discovery
(`getSupportedScans`, line 57, part of the `WorkspaceScanDetails`
construction that happens BEFORE the `try` block) rejects, `scanWorkspace`
raises the condition to the caller without `endScan` or the usage report
ever running — an exception path on which finalization does not execute. -/
theorem claimC3_counterexample :
    (scanWorkspace envC3 [("npm", ["package.json"])]).trace.countP isEndScanEvent = 0 ∧
    (scanWorkspace envC3 [("npm", ["package.json"])]).result
      = .error (.failure "supported scans request failed") :=
  ⟨rfl, rfl⟩

/-- Claim C3, amended: on every exit path of `scanWorkspace` on which the
session construction (the awaited capability discovery) succeeds — normal
completion, any task failure, cancellation, and any exception raised inside
the `try` block — finalization (`endScan` and the usage report) executes
exactly once before the call returns or the raised condition reaches the
caller; an exception during session construction escapes without
finalization. -/
theorem claimC3 (env : ScanEnv) (ws : List (PackageType × List Uri))
    (supported : SupportedScans) (h : env.getSupportedScans = .ok supported) :
    (scanWorkspace env ws).trace.countP isEndScanEvent = 1 ∧
    (scanWorkspace env ws).trace.countP isUsageReportEvent = 1 := by
  have hbe := tryBodyEvent_tryBody env (sessionDetails env supported) env.createJasRunner ws
  have hend : (tryBody env (sessionDetails env supported) env.createJasRunner ws).events.countP
      isEndScanEvent = 0 :=
    List.countP_eq_zero.mpr fun ev hev => by
      simp [isEndScanEvent_eq_false ev (hbe ev hev)]
  have husage : (tryBody env (sessionDetails env supported) env.createJasRunner ws).events.countP
      isUsageReportEvent = 0 :=
    List.countP_eq_zero.mpr fun ev hev => by
      simp [isUsageReportEvent_eq_false ev (hbe ev hev)]
  rcases hbody : (tryBody env (sessionDetails env supported) env.createJasRunner ws).outcome with e | u <;>
    simp [scanWorkspace, h, hbody, List.countP_append, List.countP_cons, hend, husage,
      isEndScanEvent, isUsageReportEvent]

/-- Claim C3, witness: concrete instantiation of the amended theorem on a
fully successful invocation. -/
theorem claimC3_witness :
    (scanWorkspace envHappy [("npm", ["package.json"])]).trace.countP isEndScanEvent = 1 ∧
    (scanWorkspace envHappy [("npm", ["package.json"])]).trace.countP isUsageReportEvent = 1 :=
  claimC3 envHappy [("npm", ["package.json"])] { tokenValidation := true } rfl

/-- Claim C5: when the `try` body of `scanWorkspace` ends with an unhandled
error, a `ScanCancellationError` sets the session status to `Cancelled` and
any other error sets it to `Failed`, and in both cases the error is
re-raised to the caller after finalization (the status write, `endScan` and
the usage report close the trace, and the settlement is the rejection). -/
theorem claimC5 (env : ScanEnv) (ws : List (PackageType × List Uri))
    (supported : SupportedScans) (e : ScanError)
    (h : env.getSupportedScans = .ok supported)
    (hbody : (tryBody env (sessionDetails env supported) env.createJasRunner ws).outcome
      = .error e) :
    (scanWorkspace env ws).result = .error e ∧
    ∃ pre, (scanWorkspace env ws).trace
      = pre ++ [.statusWrite (if e = .cancellation then .cancelled else .failed),
                .endScan, .usageReport env.uniqFeatures] := by
  have hsf : statusFor e = if e = .cancellation then .cancelled else .failed := by
    cases e <;> simp [statusFor]
  constructor
  · simp [scanWorkspace, h, hbody]
  · refine ⟨.startStep "Scanning for issues" (calculateNumberOfTasks env.createJasRunner ws)
        :: (tryBody env (sessionDetails env supported) env.createJasRunner ws).events, ?_⟩
    simp [scanWorkspace, h, hbody, hsf]

/-- Claim C5, witness: the pre-fan-out cancellation raises, the unhandled
`ScanCancellationError` reaches the orchestration level, and the call
rejects with it. -/
theorem claimC5_witness :
    (scanWorkspace envC5 [("npm", ["package.json"])]).result = .error .cancellation :=
  (claimC5 envC5 [("npm", ["package.json"])] { tokenValidation := true } .cancellation
    rfl rfl).1

/-- Claim C6: when the single pre-fan-out cancellation check raises, no
dependency task and no runner task is launched, the session status is set to
`Cancelled`, and the `Cancelled` condition is raised to the caller. -/
theorem claimC6 (env : ScanEnv) (ws : List (PackageType × List Uri))
    (supported : SupportedScans)
    (h : env.getSupportedScans = .ok supported)
    (hana : env.reportAnalytics = true → env.startScanOutcome = .ok ())
    (hcc : env.checkCanceledThrows 0 = true) :
    (scanWorkspace env ws).result = .error .cancellation ∧
    (scanWorkspace env ws).trace.countP isLaunchEvent = 0 ∧
    ScanEvent.statusWrite .cancelled ∈ (scanWorkspace env ws).trace := by
  have hbody : tryBody env (sessionDetails env supported) env.createJasRunner ws
      = { events := (if env.reportAnalytics then [ScanEvent.startScan] else [])
            ++ [.checkCancel 0],
          outcome := .error .cancellation } := by
    by_cases hra : env.reportAnalytics
    · simp [tryBody, hra, hana hra, hcc]
    · simp [tryBody, hra, hcc]
  refine ⟨?_, ?_, ?_⟩ <;>
    by_cases hra : env.reportAnalytics <;>
      simp [scanWorkspace, h, hbody, hra, statusFor, isLaunchEvent,
        List.countP_append, List.countP_cons]

/-- Claim C6, witness: concrete invocation whose cancellation check always
raises; the call rejects with the cancellation and launches nothing. -/
theorem claimC6_witness :
    (scanWorkspace envC6 [("npm", ["package.json"])]).result = .error .cancellation :=
  (claimC6 envC6 [("npm", ["package.json"])] { tokenValidation := true } rfl
    (fun _ => rfl) rfl).1

/-- Claim C9, counterexample: when the awaited capability discovery rejects,
the promise returned by `scanWorkspace` settles (rejects) although
finalization was never performed — the empty trace contains neither
`endScan` nor the usage report. -/
theorem claimC9_counterexample :
    (scanWorkspace envC9 []).result = .error (.failure "connection refused") ∧
    (scanWorkspace envC9 []).trace = [] :=
  ⟨rfl, rfl⟩

/-- Claim C9, amended: the promise returned by `scanWorkspace` is a void
promise, and whenever the session construction (the awaited capability
discovery) succeeds it settles — resolves or rejects — only after
finalization: the trace ends with `endScan` followed by the usage report. -/
theorem claimC9 (env : ScanEnv) (ws : List (PackageType × List Uri))
    (supported : SupportedScans) (h : env.getSupportedScans = .ok supported) :
    (∀ u, (scanWorkspace env ws).result = .ok u → u = ()) ∧
    ∃ pre, (scanWorkspace env ws).trace
      = pre ++ [.endScan, .usageReport env.uniqFeatures] := by
  refine ⟨fun u _ => rfl, ?_⟩
  rcases hbody : (tryBody env (sessionDetails env supported) env.createJasRunner ws).outcome with e | u
  · refine ⟨.startStep "Scanning for issues" (calculateNumberOfTasks env.createJasRunner ws)
        :: ((tryBody env (sessionDetails env supported) env.createJasRunner ws).events
          ++ [.statusWrite (statusFor e)]), ?_⟩
    simp [scanWorkspace, h, hbody]
  · refine ⟨.startStep "Scanning for issues" (calculateNumberOfTasks env.createJasRunner ws)
        :: (tryBody env (sessionDetails env supported) env.createJasRunner ws).events, ?_⟩
    simp [scanWorkspace, h, hbody]

/-- Claim C9, witness: concrete instantiation of the amended theorem on a
fully successful invocation. -/
theorem claimC9_witness :
    ∃ pre, (scanWorkspace envHappy [("go", ["go.mod"])]).trace
      = pre ++ [.endScan, .usageReport envHappy.uniqFeatures] :=
  (claimC9 envHappy [("go", ["go.mod"])] { tokenValidation := true } rfl).2

/-- Claim C7: the session status is monotonic across a `scanWorkspace`
invocation — every write the invocation performs on the status field is
`Failed` or `Cancelled` (success paths never write the status field), so
under every interleaving of those writes, once the field holds `Failed` or
`Cancelled` it never returns to a success state. -/
theorem claimC7 (env : ScanEnv) (ws : List (PackageType × List Uri)) :
    (∀ s ∈ statusWritesOf (scanWorkspace env ws).trace,
      s = .failed ∨ s = .cancelled) ∧
    (∀ interleaving : List ScanEventStatus,
      (∀ s ∈ interleaving, s ∈ statusWritesOf (scanWorkspace env ws).trace) →
      ∀ init : ScanEventStatus, (init = .failed ∨ init = .cancelled) →
      (applyWrites init interleaving = .failed ∨
       applyWrites init interleaving = .cancelled)) := by
  have main : ∀ s ∈ statusWritesOf (scanWorkspace env ws).trace,
      s = .failed ∨ s = .cancelled := by
    intro s hs
    obtain ⟨ev, hev, hf⟩ := List.mem_filterMap.mp hs
    have hevw : ev = .statusWrite s := by cases ev <;> simp_all
    subst hevw
    rcases hsup : env.getSupportedScans with e | supported
    · simp [scanWorkspace, hsup] at hev
    · rcases hbody : (tryBody env (sessionDetails env supported) env.createJasRunner ws).outcome with e | u <;>
        simp only [scanWorkspace, hsup, hbody, List.mem_cons, List.mem_append,
          List.mem_singleton, reduceCtorEq, false_or, or_false,
          ScanEvent.statusWrite.injEq] at hev
      · rcases hev with (hev | hev) | hev | hev
        · exact absurd hev (List.not_mem_nil _)
        · exact Or.inl
            (tryBodyEvent_tryBody env (sessionDetails env supported) env.createJasRunner ws
              (.statusWrite s) hev)
        · subst hev
          cases e
          · exact Or.inr rfl
          · exact Or.inl rfl
        · exact absurd hev (List.not_mem_nil _)
      · rcases hev with (hev | hev) | hev
        · exact absurd hev (List.not_mem_nil _)
        · exact Or.inl
            (tryBodyEvent_tryBody env (sessionDetails env supported) env.createJasRunner ws
              (.statusWrite s) hev)
        · exact absurd hev (List.not_mem_nil _)
  refine ⟨main, ?_⟩
  intro interleaving hmem init hinit
  induction interleaving generalizing init with
  | nil => exact hinit
  | cons w rest ih =>
    have hw : w = .failed ∨ w = .cancelled := main w (hmem w (by simp))
    have hstep : applyWrites init (w :: rest) = applyWrites w rest := rfl
    rw [hstep]
    exact ih (fun s hs => hmem s (List.mem_cons_of_mem _ hs)) w hw

/-- Claim C7, witness: concrete instantiation — replaying the one `Failed`
write of a failing invocation on top of an already-failed status leaves the
status in a terminal state. -/
theorem claimC7_witness :
    applyWrites ScanEventStatus.failed [ScanEventStatus.failed] = ScanEventStatus.failed ∨
    applyWrites ScanEventStatus.failed [ScanEventStatus.failed] = ScanEventStatus.cancelled :=
  (claimC7 envC7 [("npm", ["package.json"])]).2 [ScanEventStatus.failed]
    (by decide) ScanEventStatus.failed (Or.inl rfl)

/-- Claim C4: when one launched dependency task or runner task fails
internally, its error is caught at the fan-out boundary and logged (the
dependency boundary passes the analytics flag), the session status is set to
`Failed`, every sibling task still runs to completion with its results in
the trace and accumulator, and the failure is not propagated to the caller
of `scanWorkspace` (the call resolves). -/
theorem claimC4 (env : ScanEnv) (ws : List (PackageType × List Uri))
    (supported : SupportedScans)
    (h : env.getSupportedScans = .ok supported)
    (hana : env.reportAnalytics = true → env.startScanOutcome = .ok ())
    (hcc : ∀ n, env.checkCanceledThrows n = false) :
    (scanWorkspace env ws).result = .ok () ∧
    (∀ pkgType descriptorsPaths e, (pkgType, descriptorsPaths) ∈ ws →
      env.scanPackageDependencies pkgType descriptorsPaths = .error e →
      ScanEvent.logError e true ∈ (scanWorkspace env ws).trace ∧
      ScanEvent.statusWrite .failed ∈ (scanWorkspace env ws).trace) ∧
    (∀ r e, r ∈ env.createJasRunner → r.shouldRun = true → r.scanOutcome = .error e →
      ScanEvent.logError e false ∈ (scanWorkspace env ws).trace ∧
      ScanEvent.statusWrite .failed ∈ (scanWorkspace env ws).trace) ∧
    (∀ pkgType descriptorsPaths, (pkgType, descriptorsPaths) ∈ ws →
      env.scanPackageDependencies pkgType descriptorsPaths = .ok () →
      ScanEvent.depResult pkgType ∈ (scanWorkspace env ws).trace) ∧
    (∀ r, r ∈ env.createJasRunner → r.shouldRun = true → r.scanOutcome = .ok () →
      ScanEvent.runnerResult r.name ∈ (scanWorkspace env ws).trace) := by
  have hout := tryBody_happy_outcome env (sessionDetails env supported)
    env.createJasRunner ws hana hcc
  have hevs := tryBody_happy_events env (sessionDetails env supported)
    env.createJasRunner ws hana hcc
  have htrace : (scanWorkspace env ws).trace
      = .startStep "Scanning for issues" (calculateNumberOfTasks env.createJasRunner ws)
        :: ((tryBody env (sessionDetails env supported) env.createJasRunner ws).events
          ++ [.endScan, .usageReport env.uniqFeatures]) := by
    simp [scanWorkspace, h, hout]
  have hmem : ∀ p ∈ (ws.map fun entry => depTaskRun env entry.1 entry.2)
      ++ (env.createJasRunner.filter fun r => r.shouldRun).map runnerTaskRun,
      ∀ ev ∈ p.events, ev ∈ (scanWorkspace env ws).trace := by
    intro p hp ev hevp
    rw [htrace]
    apply List.mem_cons_of_mem
    apply List.mem_append_left
    rw [hevs]
    apply List.mem_append_right
    exact List.mem_flatten.mpr ⟨p.events, List.mem_map_of_mem _ hp, hevp⟩
  refine ⟨by simp [scanWorkspace, h, hout], ?_, ?_, ?_, ?_⟩
  · intro pkgType descriptorsPaths e hws hfail
    have hp : depTaskRun env pkgType descriptorsPaths
        ∈ (ws.map fun entry => depTaskRun env entry.1 entry.2)
          ++ (env.createJasRunner.filter fun r => r.shouldRun).map runnerTaskRun :=
      List.mem_append_left _ (List.mem_map.mpr ⟨(pkgType, descriptorsPaths), hws, rfl⟩)
    have he := depTaskRun_events_error env pkgType descriptorsPaths e hfail
    exact ⟨hmem _ hp _ (by rw [he]; simp), hmem _ hp _ (by rw [he]; simp)⟩
  · intro r e hr hsr hfail
    have hp : runnerTaskRun r
        ∈ (ws.map fun entry => depTaskRun env entry.1 entry.2)
          ++ (env.createJasRunner.filter fun r => r.shouldRun).map runnerTaskRun :=
      List.mem_append_right _
        (List.mem_map.mpr ⟨r, List.mem_filter.mpr ⟨hr, by simp [hsr]⟩, rfl⟩)
    have he := runnerTaskRun_events_error r e hfail
    exact ⟨hmem _ hp _ (by rw [he]; simp), hmem _ hp _ (by rw [he]; simp)⟩
  · intro pkgType descriptorsPaths hws hok
    have hp : depTaskRun env pkgType descriptorsPaths
        ∈ (ws.map fun entry => depTaskRun env entry.1 entry.2)
          ++ (env.createJasRunner.filter fun r => r.shouldRun).map runnerTaskRun :=
      List.mem_append_left _ (List.mem_map.mpr ⟨(pkgType, descriptorsPaths), hws, rfl⟩)
    have he := depTaskRun_events_ok env pkgType descriptorsPaths hok
    exact hmem _ hp _ (by rw [he]; simp)
  · intro r hr hsr hok
    have hp : runnerTaskRun r
        ∈ (ws.map fun entry => depTaskRun env entry.1 entry.2)
          ++ (env.createJasRunner.filter fun r => r.shouldRun).map runnerTaskRun :=
      List.mem_append_right _
        (List.mem_map.mpr ⟨r, List.mem_filter.mpr ⟨hr, by simp [hsr]⟩, rfl⟩)
    have he := runnerTaskRun_events_ok r hok
    exact hmem _ hp _ (by rw [he]; simp)

/-- Claim C4, witness: the npm dependency scan fails while the go dependency
scan succeeds; the invocation still resolves and the go results are present. -/
theorem claimC4_witness :
    (scanWorkspace envC4 [("npm", ["package.json"]), ("go", ["go.mod"])]).result = .ok () ∧
    ScanEvent.depResult "go"
      ∈ (scanWorkspace envC4 [("npm", ["package.json"]), ("go", ["go.mod"])]).trace :=
  ⟨(claimC4 envC4 [("npm", ["package.json"]), ("go", ["go.mod"])] { tokenValidation := true }
      rfl (fun _ => rfl) (fun _ => rfl)).1,
   (claimC4 envC4 [("npm", ["package.json"]), ("go", ["go.mod"])] { tokenValidation := true }
      rfl (fun _ => rfl) (fun _ => rfl)).2.2.2.1 "go" ["go.mod"] (by simp) (by decide)⟩

/-- Claim C8: `runSourceCodeScans` assembles one shared parameter bag — the
bag carries the correlation id exactly when the session has a `multiScanId`,
and carries the token-validation flag exactly when the discovered
capabilities include token validation — and launches exactly the runners
whose `shouldRun` predicate returns true, each with that same bag. -/
theorem claimC8 (scanDetails : WorkspaceScanDetails) (jasRunners : List JasRunner) :
    msiOf (buildBinaryEnvParams scanDetails) = scanDetails.multiScanId ∧
    tokenValidationOf (buildBinaryEnvParams scanDetails)
      = (if scanDetails.jasRunnerFactory.supportedScans.tokenValidation
          then some true else none) ∧
    (runSourceCodeScans scanDetails jasRunners).1
      = (jasRunners.filter fun r => r.shouldRun).map
          (fun r => .launchRunner r.name (buildBinaryEnvParams scanDetails)) ∧
    (runSourceCodeScans scanDetails jasRunners).2
      = (jasRunners.filter fun r => r.shouldRun).map runnerTaskRun := by
  obtain ⟨msi, ⟨⟨tv⟩, feats⟩⟩ := scanDetails
  refine ⟨?_, ?_, ?_, ?_⟩
  · cases msi <;> cases tv <;> simp [buildBinaryEnvParams, msiOf]
  · cases msi <;> cases tv <;> simp [buildBinaryEnvParams, tokenValidationOf]
  · rw [runSourceCodeScans, runSourceCodeScansLoop_eq]
  · rw [runSourceCodeScans, runSourceCodeScansLoop_eq]
